import Mathlib

/-!
# Verification of the Output Contract Validation & Self-Repair Engine

Shallow embedding of the validators and the retry loop of the repository
(`deepseek/Chapter03/eg3.py`, `eg4.py`, `eg5.py`, `eg6.py`) together with
proofs of the spec claims C1..C10.

Conventions of the embedding:
* Python strings are modelled as `List Char` (`String.data` at the boundary).
* Whitespace / word characters follow the ASCII core of Python's `\s` / `\w`
  (all inputs considered in the claims are ASCII).
* `decimal.Decimal` values are modelled by `ScaledDec` (an integer mantissa
  with a base-10 scale); `Decimal` comparison is numeric equality, and
  `quantize(..., ROUND_HALF_UP)` (ties away from zero) is implemented on the
  mantissa with integer arithmetic.  Special values (NaN, Infinity) and the
  underscore digit separators accepted by `Decimal` are outside the model;
  no claim exercises them.
* A Python exception escaping a function is modelled by `Except.error ()`;
  a normal return by `Except.ok`.
* Failure-reason strings are modelled by inductive reason types, one
  constructor per distinct message, carrying the interpolated data.
-/

/-- ASCII core of Python's `\s` (matches `str.strip` / `re` whitespace for
ASCII text): space, tab, newline, carriage return, form feed, vertical tab. -/
def isPySpace (c : Char) : Bool :=
  c = ' ' ∨ c = '\t' ∨ c = '\n' ∨ c = '\r' ∨ c = '\x0b' ∨ c = '\x0c'

/-- ASCII core of Python's `\w`: letters, digits and underscore. -/
def isWordChar (c : Char) : Bool :=
  c.isAlpha ∨ c.isDigit ∨ c = '_'

/-- Python `str.strip()` (ASCII whitespace). -/
def pyStrip (l : List Char) : List Char :=
  ((l.dropWhile isPySpace).reverse.dropWhile isPySpace).reverse

/-- Match a literal pattern at the head of the input; return the rest. -/
def lit : List Char → List Char → Option (List Char)
  | [], l => some l
  | _ :: _, [] => none
  | p :: ps, c :: cs => if p = c then lit ps cs else none

/-- Match a literal pattern case-insensitively (for `re.IGNORECASE`). -/
def litCI : List Char → List Char → Option (List Char)
  | [], l => some l
  | _ :: _, [] => none
  | p :: ps, c :: cs => if p.toLower = c.toLower then litCI ps cs else none

/-- Skip (possibly empty) whitespace: the regex `\s*` before a literal that
starts with a non-space character. -/
def skipWs (l : List Char) : List Char := l.dropWhile isPySpace

/-- `\s+`: at least one whitespace character, maximal. -/
def skipWs1 (l : List Char) : Option (List Char) :=
  match l with
  | c :: rest => if isPySpace c then some (rest.dropWhile isPySpace) else none
  | [] => none

/-- Value of a digit run (`int` of a `\d+` group; cannot fail). -/
def digitsToNat (l : List Char) : ℕ :=
  l.foldl (fun acc c => 10 * acc + (c.toNat - '0'.toNat)) 0

/-- Python substring test `k in s`. -/
def isSubstrOf (k : List Char) : List Char → Bool
  | [] => k.isEmpty
  | l@(_ :: t) => k.isPrefixOf l || isSubstrOf k t

/-! ## `decimal.Decimal` model -/

/-- A `decimal.Decimal` value: `mant / 10 ^ scale`.  The scale is kept (not
normalised) because `Decimal` remembers it (`Decimal("2.50")` has scale 2). -/
structure ScaledDec where
  mant : ℤ
  scale : ℤ
deriving DecidableEq

/-- The rational value of a `Decimal`. -/
def ScaledDec.toQ (d : ScaledDec) : ℚ :=
  (d.mant : ℚ) / (10 : ℚ) ^ d.scale

/-- Parse the standard numeric grammar accepted by the `Decimal`
constructor: `[+-]? ( \d+ (\.\d*)? | \.\d+ ) ( [eE] [+-]? \d+ )?`.
`none` models `InvalidOperation`. -/
def parseDecimal (l : List Char) : Option ScaledDec :=
  let (sgn, l1) : ℤ × List Char :=
    match l with
    | '+' :: t => (1, t)
    | '-' :: t => (-1, t)
    | _ => (1, l)
  let ip := l1.takeWhile Char.isDigit
  let l2 := l1.drop ip.length
  let core : Option (ℕ × ℕ × List Char) :=
    match l2 with
    | '.' :: t =>
      let fp := t.takeWhile Char.isDigit
      if ip.isEmpty ∧ fp.isEmpty then none
      else some (digitsToNat (ip ++ fp), fp.length, t.drop fp.length)
    | _ => if ip.isEmpty then none else some (digitsToNat ip, 0, l2)
  match core with
  | none => none
  | some (m, sc, rest) =>
    match rest with
    | [] => some ⟨sgn * m, sc⟩
    | e :: t =>
      if e = 'e' ∨ e = 'E' then
        let (esgn, t1) : ℤ × List Char :=
          match t with
          | '+' :: r => (1, r)
          | '-' :: r => (-1, r)
          | _ => (1, t)
        let ds := t1.takeWhile Char.isDigit
        if ds.isEmpty ∨ ¬(t1.drop ds.length).isEmpty then none
        else some ⟨sgn * m, (sc : ℤ) - esgn * digitsToNat ds⟩
      else none

/-- Round a nonnegative fraction `a / d` to the nearest integer, ties up
(the mantissa step of `ROUND_HALF_UP`). -/
def roundHalfAwayMant (a d : ℕ) : ℕ :=
  if d ≤ 2 * (a % d) then a / d + 1 else a / d

/-- The result mantissa of rounding to `dp` decimal places with ties away
from zero (the arithmetic core of `ROUND_HALF_UP` quantization). -/
def quantizeMant (e : ScaledDec) (dp : ℕ) : ℤ :=
  if e.scale ≤ (dp : ℤ) then
    e.mant * 10 ^ ((dp : ℤ) - e.scale).toNat
  else
    if e.mant < 0 then
      -(roundHalfAwayMant e.mant.natAbs (10 ^ (e.scale - (dp : ℤ)).toNat) : ℤ)
    else
      (roundHalfAwayMant e.mant.natAbs (10 ^ (e.scale - (dp : ℤ)).toNat) : ℤ)

/-- `Decimal.quantize(Decimal(10) ** -dp, rounding=ROUND_HALF_UP)` under the
default decimal context: round to `dp` decimal places, ties away from zero,
raising `InvalidOperation` (`none`) when the result coefficient would exceed
the context precision of 28 digits (i.e. reach `10 ^ 28` in absolute value).
The context's exponent limits (`Emin`/`Emax` = ±999999) are far beyond any
representable input of the surrounding program and are not modelled. -/
def quantizeHalfUp (e : ScaledDec) (dp : ℕ) : Option ScaledDec :=
  if 10 ^ 28 ≤ (quantizeMant e dp).natAbs then none
  else some ⟨quantizeMant e dp, dp⟩

/-- `Decimal` equality (`==` / `!=`) is numeric: compare after bringing both
mantissas to the larger scale. -/
def decValEq (a b : ScaledDec) : Bool :=
  a.mant * 10 ^ (max a.scale b.scale - a.scale).toNat
    = b.mant * 10 ^ (max a.scale b.scale - b.scale).toNat

/-- Modelled from the spec: rounding to the nearest integer with ties away
from zero (the spec's name for the policy of `ROUND_HALF_UP`), stated
directly on rationals, to be compared with the source's mantissa-level
implementation `quantizeHalfUp`. -/
def roundHalfAwaySpec (q : ℚ) : ℤ :=
  if 0 ≤ q then ⌊q + 1 / 2⌋ else -⌊-q + 1 / 2⌋

/-! ## eg5.py — Numeric-Tag Validator (`validate_math_answer`) -/

namespace eg5

/-- Failure reasons of `validate_math_answer`, one constructor per message
(payloads are the interpolated data):
* `notExactlyOneTag` ↔ "Response is not exactly one `<answer>`...`</answer>`
  tag with no extra text."
* `missingUnits` ↔ "Missing units=... attribute."
* `wrongUnits got expected` ↔ "Wrong units: got ..., expected ...."
* `missingRounding` ↔ "Missing rounding=Xdp attribute."
* `wrongRoundingDp got expected` ↔ "Wrong rounding dp: got ..., expected ...."
* `notValidDecimal` ↔ "Answer text is not a valid decimal number."
* `wrongDecimalCount expected got` ↔ "Answer must have exactly ... decimal
  places, got ...."
* `numericMismatch got expected dp` ↔ "Numeric mismatch: got ..., expected
  ... at ...dp."
* `couldNotParse` ↔ "Could not parse numeric value for comparison."
(The Python branch "rounding attribute must be an integer followed by dp" is
dead code: the captured group `\d+` always converts with `int`.) -/
inductive MathReason where
  | notExactlyOneTag
  | missingUnits
  | wrongUnits (got expected : List Char)
  | missingRounding
  | wrongRoundingDp (got expected : ℕ)
  | notValidDecimal
  | wrongDecimalCount (expected got : ℕ)
  | numericMismatch (got expected : ScaledDec) (dp : ℕ)
  | couldNotParse
deriving DecidableEq

/-- Search the lazy group of `re.fullmatch(r"\s*<answer\b([^>]*)>(.*?)</answer>\s*", ...)`:
the earliest `</answer>` whose tail is all whitespace ends the content. -/
def findContent : List Char → List Char → Option (List Char)
  | body, acc =>
    match lit ("</answer>".data) body with
    | some rest =>
      if rest.all isPySpace then some acc.reverse
      else
        match body with
        | [] => none
        | c :: t => findContent t (c :: acc)
    | none =>
      match body with
      | [] => none
      | c :: t => findContent t (c :: acc)

/-- `re.fullmatch(r"\s*<answer\b([^>]*)>(.*?)</answer>\s*", response, re.DOTALL)`:
returns the two groups (attributes text, inner content) on a match. -/
def answerShape (s : List Char) : Option (List Char × List Char) :=
  match lit ("<answer".data) (s.dropWhile isPySpace) with
  | none => none
  | some rest =>
    match rest with
    | [] => none
    | c :: _ =>
      if isWordChar c then none  -- the \b word boundary after "<answer"
      else
        let attrs := rest.takeWhile (fun x => ¬ x = '>')
        match rest.drop attrs.length with
        | '>' :: body =>
          match findContent body [] with
          | some content => some (attrs, content)
          | none => none
        | _ => none

/-- Match `units\s*=\s*"([^"]+)"` at the head of the input. -/
def unitsAt (l : List Char) : Option (List Char) :=
  match lit ("units".data) l with
  | none => none
  | some r1 =>
    match skipWs r1 with
    | '=' :: r2 =>
      match skipWs r2 with
      | '"' :: r3 =>
        let g := r3.takeWhile (fun x => ¬ x = '"')
        if g.isEmpty then none
        else
          match r3.drop g.length with
          | '"' :: _ => some g
          | _ => none
      | _ => none
    | _ => none

/-- `re.search(r'units\s*=\s*"([^"]+)"', attrs)`: leftmost match. -/
def searchUnits : List Char → Option (List Char)
  | [] => none
  | l@(_ :: t) =>
    match unitsAt l with
    | some g => some g
    | none => searchUnits t

/-- Match `rounding\s*=\s*"(\d+)dp"` at the head of the input. -/
def roundingAt (l : List Char) : Option ℕ :=
  match lit ("rounding".data) l with
  | none => none
  | some r1 =>
    match skipWs r1 with
    | '=' :: r2 =>
      match skipWs r2 with
      | '"' :: r3 =>
        let ds := r3.takeWhile Char.isDigit
        if ds.isEmpty then none
        else
          match lit ("dp\"".data) (r3.drop ds.length) with
          | some _ => some (digitsToNat ds)
          | none => none
      | _ => none
    | _ => none

/-- `re.search(r'rounding\s*=\s*"(\d+)dp"', attrs)`: leftmost match,
already converted with `int`. -/
def searchRounding : List Char → Option ℕ
  | [] => none
  | l@(_ :: t) =>
    match roundingAt l with
    | some n => some n
    | none => searchRounding t

/-- Units attribute check (reasons in source order). -/
def unitsReasons (attrs : List Char) (expected_units : List Char) : List MathReason :=
  match searchUnits attrs with
  | none => [.missingUnits]
  | some u => if u = expected_units then [] else [.wrongUnits u expected_units]

/-- Rounding attribute check. -/
def roundingReasons (attrs : List Char) (dp : ℕ) : List MathReason :=
  match searchRounding attrs with
  | none => [.missingRounding]
  | some got => if got = dp then [] else [.wrongRoundingDp got dp]

/-- Decimal-literal shape of the inner value: `some k` when the text fully
matches `-?\d+\.\d+` with `k` fractional digits, `some 0` for `-?\d+`,
`none` otherwise. -/
def decLitShape (vt : List Char) : Option ℕ :=
  let l := match vt with
    | '-' :: t => t
    | _ => vt
  let ip := l.takeWhile Char.isDigit
  if ip.isEmpty then none
  else
    match l.drop ip.length with
    | [] => some 0
    | '.' :: fp => if ¬ fp.isEmpty ∧ fp.all Char.isDigit then some fp.length else none
    | _ => none

/-- Decimal-place-count check.  When the shape is invalid the source keeps
`num_decimals = 0`, so the count check can fire as well. -/
def decimalsReasons (vt : List Char) (dp : ℕ) : List MathReason :=
  let shape := decLitShape vt
  let shapeReasons : List MathReason :=
    match shape with
    | none => [.notValidDecimal]
    | some _ => []
  let num_decimals := shape.getD 0
  shapeReasons ++ (if ¬ num_decimals = dp then [.wrongDecimalCount dp num_decimals] else [])

/-- Numeric-equality check: `Decimal(value_text)` compared (`!=`, numeric)
against `Decimal(str(expected_value)).quantize(10**-dp, ROUND_HALF_UP)`.
Both the constructor's `InvalidOperation` (unparsable text) and quantize's
`InvalidOperation` (coefficient beyond the context precision) are caught by
the same `except` and produce the same "Could not parse numeric value"
reason. -/
def numericReasons (vt : List Char) (expected_value : ScaledDec) (dp : ℕ) : List MathReason :=
  match parseDecimal vt with
  | none => [.couldNotParse]
  | some got =>
    match quantizeHalfUp expected_value dp with
    | none => [.couldNotParse]
    | some expected_dec =>
      if decValEq got expected_dec then [] else [.numericMismatch got expected_dec dp]

/-- `validate_math_answer(response, expected_value, expected_units, dp)` of
eg5.py.  `expected_value` is the `Decimal` value of `str(expected_value)`
(the binary float is converted to its shortest exact decimal string before
any arithmetic; the model starts from that exact decimal). -/
def validate_math_answer (response : String) (expected_value : ScaledDec)
    (expected_units : String) (dp : ℕ) : Bool × List MathReason :=
  match answerShape response.data with
  | none => (false, [.notExactlyOneTag])
  | some (attrs, content) =>
    let value_text := pyStrip content
    let reasons := unitsReasons attrs expected_units.data
      ++ roundingReasons attrs dp
      ++ decimalsReasons value_text dp
      ++ numericReasons value_text expected_value dp
    (reasons.isEmpty, reasons)

end eg5

/-! ## eg5.py — Code-Block Validator (`validate_code_block_normalize`) -/

namespace eg5

/-- Failure reasons of `validate_code_block_normalize`:
* `notSingleFence` ↔ "Response must contain exactly one fenced code block
  and nothing else."
* `notOnePythonBlock` ↔ "There must be exactly one python block."
* `emptyBlock` ↔ "Code block is empty."
* `headerWrong` ↔ "First line must be # Python 3.12, stdlib only."
* `missingSignature` ↔ "Missing exact function signature: ..."
* `missingMainGuard` ↔ "Missing main guard: ..."
* `bannedImport lib` ↔ "Found non-stdlib import: ..." -/
inductive CodeReason where
  | notSingleFence
  | notOnePythonBlock
  | emptyBlock
  | headerWrong
  | missingSignature
  | missingMainGuard
  | bannedImport (lib : List Char)
deriving DecidableEq

/-- Python `str.splitlines()` for `\n`-separated text (no other line
terminators occur in the modelled inputs): no trailing empty line. -/
def splitlinesGo (cur : List Char) : List Char → List (List Char)
  | [] => [cur.reverse]
  | '\n' :: rest =>
    cur.reverse ::
      (match rest with
       | [] => []
       | _ :: _ => splitlinesGo [] rest)
  | c :: rest => splitlinesGo (c :: cur) rest

/-- `code.splitlines()`. -/
def splitlines : List Char → List (List Char)
  | [] => []
  | l => splitlinesGo [] l

/-- First occurrence of the closing sequence `\n`-backtick-backtick-backtick
(the regex tail of a lazy fenced-block group): returns the text before it
and the text after the whole sequence. -/
def findClose : List Char → Option (List Char × List Char)
  | [] => none
  | c :: rest =>
    if c = '\n' then
      match lit ("```".data) rest with
      | some after => some ([], after)
      | none =>
        match findClose rest with
        | some (pre, after) => some (c :: pre, after)
        | none => none
    else
      match findClose rest with
      | some (pre, after) => some (c :: pre, after)
      | none => none

/-- Extract the suffixes after each `\n` of a whitespace run, last first:
the backtracking order of the greedy `\s*` before the mandatory `\n` of
the fence pattern. -/
def nlSuffixes : List Char → List (List Char)
  | [] => []
  | '\n' :: rest => nlSuffixes rest ++ [rest]
  | _ :: rest => nlSuffixes rest

/-- Pick the first candidate on which the continuation succeeds. -/
def firstSome (f : List Char → Option (List Char × List Char)) :
    List (List Char) → Option (List Char × List Char)
  | [] => none
  | c :: cs =>
    match f c with
    | some r => some r
    | none => firstSome f cs

/-- Try the fenced-block pattern at the head of the input (the regex
`r"```python\s*\n(.*?)\n```"` with `re.DOTALL | re.IGNORECASE`): returns
the lazy group and the remainder after the match. -/
def matchFenceAt (l : List Char) : Option (List Char × List Char) :=
  match litCI ("```python".data) l with
  | none => none
  | some afterPy =>
    let w := afterPy.takeWhile isPySpace
    let tail := afterPy.drop w.length
    firstSome (fun s => findClose (s ++ tail)) (nlSuffixes w)

/-- `re.findall` scanning loop for the fenced-block pattern: leftmost,
non-overlapping; the fuel is the remaining length (every step consumes at
least one character). -/
def findBlocksAux (fuel : ℕ) (l : List Char) : List (List Char) :=
  match fuel with
  | 0 => []
  | fuel' + 1 =>
    match matchFenceAt l with
    | some (content, rest) => content :: findBlocksAux fuel' rest
    | none =>
      match l with
      | [] => []
      | _ :: t => findBlocksAux fuel' t

/-- `re.findall(r"```python\s*\n(.*?)\n```", response, re.DOTALL | re.IGNORECASE)`. -/
def findBlocks (response : String) : List (List Char) :=
  findBlocksAux (response.data.length + 1) response.data

/-- First check of the source: the stripped response starts and ends with a
fence delimiter. -/
def fenceWrap (stripped : List Char) : Bool :=
  (("```".data).isPrefixOf stripped) ∧ (("```".data).isSuffixOf stripped)

/-- `re.match(r"^\s*#\s*Python\s*3\.12,\s*stdlib\s*only\s*$", line)`:
whitespace-flexible header match (each `\s*` may be empty). -/
def headerMatch (l0 : List Char) : Bool :=
  (match lit ("#".data) (skipWs l0) with
   | none => none
   | some r1 =>
     match lit ("Python".data) (skipWs r1) with
     | none => none
     | some r2 =>
       match lit ("3.12,".data) (skipWs r2) with
       | none => none
       | some r3 =>
         match lit ("stdlib".data) (skipWs r3) with
         | none => none
         | some r4 =>
           match lit ("only".data) (skipWs r4) with
           | none => none
           | some r5 => some (skipWs r5)) = some []

/-- The regex tail `\s*$` with `re.MULTILINE` at the given position: the
greedy whitespace run may stop right before a newline (where `$` holds) or
run to the end of the string, so the tail matches exactly when the
whitespace run contains a newline or extends to the end. -/
def endAnchor (l : List Char) : Bool :=
  let w := l.takeWhile isPySpace
  w.any (fun c => c = '\n') ∨ (l.drop w.length).isEmpty

/-- The required-signature pattern
`^\s*def\s+normalize\s*\(\s*v\s*:\s*list\[float\]\s*\)\s*->\s*list\[float\]\s*:\s*$`
matched at an anchor position.  Its `\s*`/`\s+` gaps may span newlines;
only the `^` and `$` anchors are line-bound. -/
def sigAt (l : List Char) : Bool :=
  match (do
    let r1 ← lit ("def".data) (skipWs l)
    let r2 ← skipWs1 r1
    let r3 ← lit ("normalize".data) r2
    let r4 ← lit ("(".data) (skipWs r3)
    let r5 ← lit ("v".data) (skipWs r4)
    let r6 ← lit (":".data) (skipWs r5)
    let r7 ← lit ("list[float]".data) (skipWs r6)
    let r8 ← lit (")".data) (skipWs r7)
    let r9 ← lit ("->".data) (skipWs r8)
    let r10 ← lit ("list[float]".data) (skipWs r9)
    let r11 ← lit (":".data) (skipWs r10)
    pure r11 : Option (List Char)) with
  | some r => endAnchor r
  | none => false

/-- `re.search(..., code, re.MULTILINE)` of the signature pattern: the `^`
anchor holds at the string start and after each newline. -/
def hasSignatureAux : List Char → Bool
  | [] => false
  | c :: t => (if c = '\n' then sigAt t else false) || hasSignatureAux t

/-- Whether the block contains the required signature somewhere. -/
def hasSignature (code : List Char) : Bool :=
  sigAt code || hasSignatureAux code

/-- The main-guard pattern `if\s+__name__\s*==\s*['"]__main__['"]\s*:`
matched at the head of the input (each quote independently `'` or `"`). -/
def guardAt (l : List Char) : Bool :=
  (do
    let r1 ← lit ("if".data) l
    let r2 ← skipWs1 r1
    let r3 ← lit ("__name__".data) r2
    let r4 ← lit ("==".data) (skipWs r3)
    let r5 ←
      match skipWs r4 with
      | c :: t => if c = '\'' ∨ c = '"' then some t else none
      | [] => none
    let r6 ← lit ("__main__".data) r5
    let r7 ←
      match r6 with
      | c :: t => if c = '\'' ∨ c = '"' then some t else none
      | [] => none
    let _r8 ← lit (":".data) (skipWs r7)
    pure ()).isSome

/-- `re.search` of the main-guard pattern anywhere in the block. -/
def hasMainGuard : List Char → Bool
  | [] => false
  | l@(_ :: t) => guardAt l || hasMainGuard t

/-- Match the import pattern
`^\s*(?:from\s+([a-zA-Z0-9_\.]+)\s+import|import\s+([a-zA-Z0-9_\.]+))`
at an anchor position.  The `\s*` and `\s+` gaps may span newlines (the
pattern is compiled without restricting `\s`).  Returns the captured
dotted module name and the text after the whole match. -/
def importAt (l : List Char) : Option (List Char × List Char) :=
  let l1 := skipWs l
  let isModChar : Char → Bool := fun c => c.isAlpha ∨ c.isDigit ∨ c = '_' ∨ c = '.'
  let fromBranch : Option (List Char × List Char) := do
    let r1 ← lit ("from".data) l1
    let r2 ← skipWs1 r1
    let name := r2.takeWhile isModChar
    if name.isEmpty then none
    else do
      let r3 ← skipWs1 (r2.drop name.length)
      let r4 ← lit ("import".data) r3
      pure (name, r4)
  match fromBranch with
  | some res => some res
  | none => do
    let r1 ← lit ("import".data) l1
    let r2 ← skipWs1 r1
    let name := r2.takeWhile isModChar
    if name.isEmpty then none else pure (name, r2.drop name.length)

/-- `re.findall` scan of the import pattern with `re.MULTILINE`: the `^`
anchor holds at the string start and right after each newline; matches are
non-overlapping (scanning resumes after each match, where the anchor no
longer holds until the next newline).  The fuel is the remaining length
plus one: every step consumes at least one character. -/
def importScanAux (fuel : ℕ) (atStart : Bool) (l : List Char) : List (List Char) :=
  match fuel with
  | 0 => []
  | fuel' + 1 =>
    match l with
    | [] => []
    | c :: t =>
      if atStart then
        match importAt l with
        | some (name, rest) => name :: importScanAux fuel' false rest
        | none => importScanAux fuel' (c = '\n') t
      else importScanAux fuel' (c = '\n') t

/-- All captured module names of the import pattern over the block, in
match order. -/
def importScan (code : List Char) : List (List Char) :=
  importScanAux (code.length + 1) true code

/-- The banned third-party module set of the source. -/
def banned_libs : List (List Char) :=
  ["numpy".data, "pandas".data, "requests".data, "torch".data,
   "tensorflow".data, "sklearn".data, "httpx".data, "aiohttp".data]

/-- One reason per offending import (`lib` is the first dot-component of
the captured name). -/
def importReasons (code : List Char) : List CodeReason :=
  (importScan code).filterMap fun name =>
    let libName := name.takeWhile (fun c => ¬ c = '.')
    if libName ∈ banned_libs then some (.bannedImport libName) else none

/-- `validate_code_block_normalize(response)` of eg5.py. -/
def validate_code_block_normalize (response : String) : Bool × List CodeReason :=
  if ¬ fenceWrap (pyStrip response.data) then (false, [.notSingleFence])
  else
    match findBlocks response with
    | [code] =>
      (match splitlines code with
       | [] => (false, [.emptyBlock])
       | l0 :: _ =>
         let reasons := (if ¬ headerMatch l0 then [.headerWrong] else [])
           ++ (if ¬ hasSignature code then [.missingSignature] else [])
           ++ (if ¬ hasMainGuard code then [.missingMainGuard] else [])
           ++ importReasons code
         (reasons.isEmpty, reasons))
    | _ => (false, [.notOnePythonBlock])

end eg5

/-! ## eg3.py — Schema Validator (`validate_response`) -/

namespace eg3

/-- `count_words(text) = len(text.strip().split())`: number of maximal
non-whitespace runs. -/
def count_words (s : List Char) : ℕ :=
  ((s.splitOnP isPySpace).filter (fun w => ¬ w.isEmpty)).length

end eg3

/-! ## eg4.py — Focus Analyzer (`analyze_focus`) -/

namespace eg4

/-- The on-topic SQL keyword set of the source. -/
def SQL_KEYS : List (List Char) :=
  ["sql injection".data, "sqli".data, "parameterized".data,
   "prepared statement".data, "prepared statements".data,
   "bind parameter".data, "bind parameters".data, "escape".data,
   "sanitize".data]

/-- The on-topic authentication keyword set of the source. -/
def AUTH_KEYS : List (List Char) :=
  ["authentication bypass".data, "auth bypass".data,
   "bypass authentication".data, "logic flaw".data,
   "privilege escalation".data, "session fixation".data,
   "remember".data, "is_admin".data]

/-- The off-topic keyword set of the source. -/
def OFF_TOPIC : List (List Char) :=
  ["xss".data, "csrf".data, "ssrf".data, "rce".data, "xxe".data,
   "deserialization".data, "clickjacking".data]

/-- Python `str.lower()` (ASCII). -/
def toLowerL (l : List Char) : List Char := l.map Char.toLower

/-- `str.count(sub)`: non-overlapping occurrences, scanning left to right.
The fuel is the remaining length plus one (each step consumes at least one
character for non-empty needles; for the empty needle the fuel value
`len + 1` is exactly Python's count). -/
def countOccAux (needle : List Char) : ℕ → List Char → ℕ
  | 0, _ => 0
  | fuel + 1, hay =>
    if needle.isPrefixOf hay then 1 + countOccAux needle fuel (hay.drop needle.length)
    else
      match hay with
      | [] => 0
      | _ :: t => countOccAux needle fuel t

/-- `hay.count(needle)`. -/
def countOcc (hay needle : List Char) : ℕ :=
  countOccAux needle (hay.length + 1) hay

/-- `_count_any(text, keys) = sum(text.lower().count(k) for k in keys)`. -/
def countAny (text : List Char) (keys : List (List Char)) : ℕ :=
  (keys.map (countOcc (toLowerL text))).sum

/-- `_contains_any(text, keys) = any(k in text.lower() for k in keys)`. -/
def containsAny (text : List Char) (keys : List (List Char)) : Bool :=
  keys.any fun k => isSubstrOf k (toLowerL text)

/-- `_count_words(text) = len(re.findall(r"\w+", text))`: number of maximal
word-character runs. -/
def countWordRunsAux (inWord : Bool) : List Char → ℕ
  | [] => 0
  | c :: t =>
    if isWordChar c then (if inWord then 0 else 1) + countWordRunsAux true t
    else countWordRunsAux false t

/-- `_count_words(text)`. -/
def count_words (s : List Char) : ℕ := countWordRunsAux false s

/-- Scanner for `re.split(r"(?<=[.!?])\s+", text)`: a whitespace run whose
immediately preceding character is `.`, `!` or `?` separates sentences;
the run itself is consumed greedily (the `skipping` mode). -/
def sentGo : Bool → List Char → Option Char → List Char → List (List Char)
  | _, cur, _, [] => [cur.reverse]
  | true, cur, _, c :: rest =>
    if isPySpace c then sentGo true cur none rest
    else sentGo false [c] (some c) rest
  | false, cur, prev, c :: rest =>
    if isPySpace c ∧ (prev = some '.' ∨ prev = some '!' ∨ prev = some '?') then
      cur.reverse :: sentGo true [] none rest
    else sentGo false (c :: cur) (some c) rest

/-- `_sentences(text)`: split the stripped text and drop empty pieces. -/
def sentences (text : List Char) : List (List Char) :=
  (sentGo false [] none (pyStrip text)).filter fun p => ¬ p.isEmpty

/-- Round `a / b` to the nearest integer with ties to even (the rounding of
Python's `round`; modelled on the exact rational rather than the binary
float, which coincides on all inputs without representation-edge ties). -/
def roundHalfEvenDiv (a b : ℕ) : ℕ :=
  let q := a / b
  let r := a % b
  if 2 * r < b then q
  else if b < 2 * r then q + 1
  else if q % 2 = 0 then q else q + 1

/-- `round(num / den, 3)` expressed in thousandths. -/
def pyRound3Millis (num den : ℕ) : ℕ := roundHalfEvenDiv (1000 * num) den

/-- The metrics snapshot returned by `analyze_focus`.  `snr_millis` is the
`snr` value in thousandths (`snr = snr_millis / 1000`); `sentences_total`
is the clamped sentence count used as the denominator. -/
structure FocusMetrics where
  mentions_sql : Bool
  mentions_auth_bypass : Bool
  target_hits : ℕ
  offtopic_hits : ℕ
  focus_score : ℤ
  snr_millis : ℕ
  length_words : ℕ
  sentences_total : ℕ
deriving DecidableEq

/-- `analyze_focus(text)` of eg4.py. -/
def analyze_focus (text : String) : FocusMetrics :=
  let t := text.data
  let words := count_words t
  let sent := sentences t
  let sent_total := max sent.length 1
  let sql_hits := countAny t SQL_KEYS
  let auth_hits := countAny t AUTH_KEYS
  let offtopic_hits := countAny t OFF_TOPIC
  let target_hits := sql_hits + auth_hits
  let focus_score : ℤ := (target_hits : ℤ) - (offtopic_hits : ℤ)
  let target_sentences :=
    (sent.filter fun s => containsAny s SQL_KEYS || containsAny s AUTH_KEYS).length
  let snr_millis := pyRound3Millis target_sentences sent_total
  { mentions_sql := 0 < sql_hits
    mentions_auth_bypass := 0 < auth_hits
    target_hits := target_hits
    offtopic_hits := offtopic_hits
    focus_score := focus_score
    snr_millis := snr_millis
    length_words := words
    sentences_total := sent_total }

end eg4

/-! ## eg6.py — Retry-Repair Orchestrator (`extract_with_retry`) -/

namespace eg6

/-- How a call of `extract_with_retry` can end: a validated value, a
re-raised exception from the final attempt, or the implicit `None` that
Python returns when the `for` loop body never runs. -/
inductive RetryOutcome (V : Type) where
  | ok (v : V)
  | raised (e : String)
  | returnedNone
deriving DecidableEq

/-- The corrective prompt built in the `except` branch. -/
def repairPrompt (e prompt : String) : String :=
  "The previous JSON was invalid:\n" ++ e ++ "\n\nPlease fix and return valid JSON for: "
    ++ prompt

/-- The `for attempt in range(max_retries)` loop.  `remaining` is
`max_retries - attempt`, so the loop guard is `0 < remaining` and the
source's `attempt < max_retries - 1` test is `remaining ≠ 1`, i.e. the
`remaining = 0` test after one unit is consumed.  The collaborator `gen`
receives the attempt index and the current prompt and either returns a
value or raises (`Except.error`).  The second component counts the
collaborator invocations. -/
def retryAux (gen : ℕ → String → Except String V) (attempt : ℕ) (prompt : String) :
    ℕ → RetryOutcome V × ℕ
  | 0 => (.returnedNone, 0)
  | remaining + 1 =>
    match gen attempt prompt with
    | .ok v => (.ok v, 1)
    | .error e =>
      if remaining = 0 then (.raised e, 1)
      else
        let r := retryAux gen (attempt + 1) (repairPrompt e prompt) remaining
        (r.1, r.2 + 1)

/-- `extract_with_retry(prompt, model_class, max_retries, model)` of eg6.py,
with the `client.chat.completions.create` call abstracted as `gen`. -/
def extract_with_retry (gen : ℕ → String → Except String V) (prompt : String)
    (max_retries : ℕ) : RetryOutcome V × ℕ :=
  retryAux gen 0 prompt max_retries

/-- The prompt submitted on attempt `a + n` when the loop starts at attempt
`a` with prompt `p` and every attempt `i` fails with message `err i p_i`. -/
def promptSeqA (err : ℕ → String → String) (a : ℕ) (p : String) : ℕ → String
  | 0 => p
  | n + 1 => promptSeqA err (a + 1) (repairPrompt (err a p) p) n

end eg6


/-! ## Arithmetic lemmas about the `Decimal` model -/

theorem ScaledDec.toQ_mul_zpow (d : ScaledDec) (m : ℤ) (h : d.scale ≤ m) :
    d.toQ * (10 : ℚ) ^ m = ((d.mant * 10 ^ (m - d.scale).toNat : ℤ) : ℚ) := by
  have h10 : (10 : ℚ) ≠ 0 := by norm_num
  have hnn : (0 : ℤ) ≤ m - d.scale := by omega
  generalize hg : (m - d.scale).toNat = k
  have hk : m - d.scale = (k : ℤ) := by omega
  rw [ScaledDec.toQ, div_mul_eq_mul_div, mul_div_assoc, ← zpow_sub₀ h10, hk, zpow_natCast]
  push_cast
  ring

theorem decValEq_iff (a b : ScaledDec) : decValEq a b = true ↔ a.toQ = b.toQ := by
  have h10 : ((10 : ℚ) ^ max a.scale b.scale) ≠ 0 := zpow_ne_zero _ (by norm_num)
  rw [decValEq, decide_eq_true_eq, ← Int.cast_inj (α := ℚ),
    ← ScaledDec.toQ_mul_zpow a (max a.scale b.scale) (le_max_left _ _),
    ← ScaledDec.toQ_mul_zpow b (max a.scale b.scale) (le_max_right _ _)]
  exact mul_left_inj' h10

theorem roundHalfAwaySpec_intCast (n : ℤ) : roundHalfAwaySpec ((n : ℤ) : ℚ) = n := by
  have hhalf : ⌊(1 / 2 : ℚ)⌋ = 0 := by norm_num
  rw [roundHalfAwaySpec]
  split
  · rw [Int.floor_int_add, hhalf, add_zero]
  · rw [show -((n : ℤ) : ℚ) = ((-n : ℤ) : ℚ) by push_cast; ring,
      Int.floor_int_add, hhalf, add_zero, neg_neg]

theorem roundHalfAwaySpec_neg (x : ℚ) : roundHalfAwaySpec (-x) = -roundHalfAwaySpec x := by
  by_cases h0 : x = 0
  · subst h0; norm_num [roundHalfAwaySpec]
  · by_cases hx : 0 ≤ x
    · have hx' : ¬ (0 : ℚ) ≤ -x := by
        intro hc
        exact h0 (le_antisymm (by linarith) hx)
      rw [roundHalfAwaySpec, roundHalfAwaySpec, if_neg hx', if_pos hx, neg_neg]
    · have hx' : (0 : ℚ) ≤ -x := by linarith [lt_of_not_le hx]
      rw [roundHalfAwaySpec, roundHalfAwaySpec, if_pos hx', if_neg hx, neg_neg]

theorem roundHalfAwaySpec_natDiv (a d : ℕ) (hd : 0 < d) :
    roundHalfAwaySpec ((a : ℚ) / (d : ℚ)) = (roundHalfAwayMant a d : ℤ) := by
  set q := a / d with hqdef
  set r := a % d with hrdef
  have hd' : (0 : ℚ) < d := by exact_mod_cast hd
  have hnn : (0 : ℚ) ≤ (a : ℚ) / d := by positivity
  have ha : (a : ℚ) = (d : ℚ) * (q : ℚ) + (r : ℚ) := by
    exact_mod_cast congrArg (Nat.cast : ℕ → ℚ) (Nat.div_add_mod a d).symm
  have hr : ((r : ℕ) : ℚ) < (d : ℚ) := by
    exact_mod_cast Nat.mod_lt _ hd
  rw [roundHalfAwaySpec, if_pos hnn, roundHalfAwayMant, ← hqdef, ← hrdef]
  split
  · next hle =>
    have hle' : (d : ℚ) ≤ 2 * (r : ℚ) := by exact_mod_cast hle
    rw [Int.floor_eq_iff]
    push_cast
    constructor
    · rw [← sub_le_iff_le_add, le_div_iff₀ hd', ha]
      nlinarith [hle']
    · rw [← lt_sub_iff_add_lt, div_lt_iff₀ hd', ha]
      nlinarith [hr]
  · next hgt =>
    have hgt' : 2 * (r : ℚ) < (d : ℚ) := by
      exact_mod_cast Nat.lt_of_not_le hgt
    rw [Int.floor_eq_iff]
    push_cast
    constructor
    · rw [← sub_le_iff_le_add, le_div_iff₀ hd', ha]
      nlinarith [hr]
    · rw [← lt_sub_iff_add_lt, div_lt_iff₀ hd', ha]
      nlinarith [hgt']

theorem quantizeMant_toQ (e : ScaledDec) (dp : ℕ) :
    (ScaledDec.mk (quantizeMant e dp) dp).toQ
      = ((roundHalfAwaySpec (e.toQ * (10 : ℚ) ^ dp) : ℤ) : ℚ) / (10 : ℚ) ^ dp := by
  have h10 : (10 : ℚ) ≠ 0 := by norm_num
  rw [quantizeMant]
  split
  · next h =>
    have key : e.toQ * (10 : ℚ) ^ dp
        = ((e.mant * 10 ^ ((dp : ℤ) - e.scale).toNat : ℤ) : ℚ) := by
      rw [← ScaledDec.toQ_mul_zpow e (dp : ℤ) h, zpow_natCast]
    rw [key, roundHalfAwaySpec_intCast, ScaledDec.toQ, zpow_natCast]
  · next h =>
    have hnn : (0 : ℤ) ≤ e.scale - (dp : ℤ) := by omega
    generalize hg : (e.scale - (dp : ℤ)).toNat = t
    have hk : e.scale - (dp : ℤ) = (t : ℤ) := by omega
    have hdpos : (0 : ℕ) < 10 ^ t := by positivity
    have hdq : ((10 ^ t : ℕ) : ℚ) ≠ 0 := by positivity
    have key : e.toQ * (10 : ℚ) ^ dp = (e.mant : ℚ) / ((10 ^ t : ℕ) : ℚ) := by
      rw [ScaledDec.toQ, div_mul_eq_mul_div, mul_div_assoc, ← zpow_natCast (10 : ℚ) dp,
        ← zpow_sub₀ h10, show (dp : ℤ) - e.scale = -(t : ℤ) by omega, zpow_neg, zpow_natCast]
      push_cast
      rw [div_eq_mul_inv]
    rw [key]
    rcases lt_or_le e.mant 0 with hm | hm
    · have habs : (e.mant : ℚ) = -((e.mant.natAbs : ℕ) : ℚ) := by
        push_cast [Int.cast_natAbs]
        rw [abs_of_neg (show ((e.mant : ℤ) : ℚ) < 0 by exact_mod_cast hm), neg_neg]
      rw [if_pos hm, habs, neg_div, roundHalfAwaySpec_neg,
        roundHalfAwaySpec_natDiv _ _ hdpos, ScaledDec.toQ, zpow_natCast]
    · have habs : (e.mant : ℚ) = ((e.mant.natAbs : ℕ) : ℚ) := by
        push_cast [Int.cast_natAbs]
        rw [abs_of_nonneg (show (0 : ℚ) ≤ ((e.mant : ℤ) : ℚ) by exact_mod_cast hm)]
      rw [if_neg (not_lt.mpr hm), habs, roundHalfAwaySpec_natDiv _ _ hdpos,
        ScaledDec.toQ, zpow_natCast]

/-- When quantization stays within the context precision, the result value
is the spec rounding scaled by `10 ^ dp`. -/
theorem quantizeHalfUp_toQ {e : ScaledDec} {dp : ℕ} {q : ScaledDec}
    (hq : quantizeHalfUp e dp = some q) :
    q.toQ = ((roundHalfAwaySpec (e.toQ * (10 : ℚ) ^ dp) : ℤ) : ℚ) / (10 : ℚ) ^ dp := by
  rw [quantizeHalfUp] at hq
  split at hq
  · exact absurd hq (by simp)
  · cases hq
    exact quantizeMant_toQ e dp

/-- On an exact tie (an odd multiple of one half) the spec rounding moves
away from zero: up for nonnegative, down for negative. -/
theorem roundHalfAwaySpec_tie (k : ℤ) :
    roundHalfAwaySpec (((2 * k + 1 : ℤ) : ℚ) / 2) = if 0 ≤ k then k + 1 else k := by
  rcases le_or_lt 0 k with hk | hk
  · have hpos : (0 : ℚ) ≤ ((2 * k + 1 : ℤ) : ℚ) / 2 := by
      have : (0 : ℚ) ≤ ((2 * k + 1 : ℤ) : ℚ) := by exact_mod_cast (by omega : (0 : ℤ) ≤ 2 * k + 1)
      positivity
    rw [if_pos hk, roundHalfAwaySpec, if_pos hpos,
      show ((2 * k + 1 : ℤ) : ℚ) / 2 + 1 / 2 = ((k + 1 : ℤ) : ℚ) by push_cast; ring,
      Int.floor_intCast]
  · have hneg : ¬ (0 : ℚ) ≤ ((2 * k + 1 : ℤ) : ℚ) / 2 := by
      rw [not_le]
      have : ((2 * k + 1 : ℤ) : ℚ) < 0 := by exact_mod_cast (by omega : (2 * k + 1 : ℤ) < 0)
      linarith
    rw [if_neg (not_le.mpr hk), roundHalfAwaySpec, if_neg hneg,
      show -(((2 * k + 1 : ℤ) : ℚ) / 2) + 1 / 2 = ((-k : ℤ) : ℚ) by push_cast; ring,
      Int.floor_intCast, neg_neg]

/-! ## Support lemmas for the schema validator -/

namespace eg3

end eg3

/-! ## The claims -/

/-- C2: the spec says a `max_attempts` bound below 1 must be signalled as a
hard configuration error at session construction.  The code has no such
check: with `max_retries = 0` the `for` loop body never runs and
`extract_with_retry` falls off the end, returning `None` — no error is
raised and no validated value is produced.  This theorem evaluates the
embedded code at the failing configuration: for every collaborator and
prompt the call returns Python's implicit `None` after zero collaborator
invocations. -/
theorem claim_C2_zero_retries_returns_none (V : Type)
    (gen : ℕ → String → Except String V) (prompt : String) :
    eg6.extract_with_retry gen prompt 0 = (.returnedNone, 0) := rfl

set_option maxRecDepth 10000 in
/-- C4: the two acceptance/rejection scenario pairs of the spec, evaluated
on the embedded `validate_math_answer`.  The expected values are the exact
decimals of `str(20.0/8.0) = "2.5"` and
`str(3.141592653589793 * 3.2**2) = "32.169908772759484"`.
`<answer units="m/s^2" rounding="3dp">2.500</answer>` is accepted and
`2.50` rejected with exactly the decimal-place-count reason;
`<answer units="m^2" rounding="2dp">32.17</answer>` is accepted and
`32.16` rejected with exactly the numeric-mismatch reason (the expected
value rounds to 32.17 under half-away-from-zero). -/
theorem claim_C4_scenario_pairs :
    eg5.validate_math_answer ("<answer units=\"m/s^2\" rounding=\"3dp\">2.500</answer>")
        ⟨25, 1⟩ ("m/s^2") 3 = (true, [])
    ∧ eg5.validate_math_answer ("<answer units=\"m/s^2\" rounding=\"3dp\">2.50</answer>")
        ⟨25, 1⟩ ("m/s^2") 3 = (false, [.wrongDecimalCount 3 2])
    ∧ eg5.validate_math_answer ("<answer units=\"m^2\" rounding=\"2dp\">32.17</answer>")
        ⟨32169908772759484, 15⟩ ("m^2") 2 = (true, [])
    ∧ eg5.validate_math_answer ("<answer units=\"m^2\" rounding=\"2dp\">32.16</answer>")
        ⟨32169908772759484, 15⟩ ("m^2") 2
        = (false, [.numericMismatch ⟨3216, 2⟩ ⟨3217, 2⟩ 2]) :=
  ⟨by decide, by decide, by decide, by decide⟩

/-- C10: `analyze_focus` applied to the empty string returns the snapshot
with word count 0, hit counts 0 and signal-to-noise 0, the zero sentence
count being clamped to 1 in the denominator; and on every input the
clamped sentence count is at least 1, so no division fault is possible. -/
theorem claim_C10_focus_empty_and_total :
    eg4.analyze_focus "" =
      { mentions_sql := false
        mentions_auth_bypass := false
        target_hits := 0
        offtopic_hits := 0
        focus_score := 0
        snr_millis := 0
        length_words := 0
        sentences_total := 1 }
    ∧ ∀ t : String, 1 ≤ (eg4.analyze_focus t).sentences_total :=
  ⟨rfl, fun _ => Nat.le_max_right _ 1⟩

/-- When every attempt fails, the loop runs through all its iterations:
starting at attempt `a` with `r + 1` iterations left, it re-raises the
error of attempt `a + r` after exactly `r + 1` collaborator calls. -/
theorem eg6.retryAux_allFail {V : Type} (gen : ℕ → String → Except String V)
    (err : ℕ → String → String) (hfail : ∀ n p, gen n p = Except.error (err n p)) :
    ∀ (r a : ℕ) (p : String),
      eg6.retryAux gen a p (r + 1)
        = (.raised (err (a + r) (eg6.promptSeqA err a p r)), r + 1) := by
  intro r
  induction r with
  | zero =>
    intro a p
    rw [eg6.retryAux, hfail a p]
    rfl
  | succ r ih =>
    intro a p
    rw [eg6.retryAux, hfail a p]
    simp only [if_neg (Nat.succ_ne_zero r)]
    rw [ih (a + 1) (eg6.repairPrompt (err a p) p)]
    have hsh : a + 1 + r = a + (r + 1) := by omega
    rw [hsh]
    rfl

/-- C5: for every `max_attempts ≥ 1`, running `extract_with_retry` against
a collaborator that fails on every attempt invokes the collaborator exactly
`max_attempts` times (the call counter equals `max_attempts`; the loop is
bounded) and re-raises the failure of the final attempt — the error
produced at attempt index `max_attempts - 1` on the last repaired prompt —
not an earlier one. -/
theorem claim_C5_retry_exhaustion (V : Type) (gen : ℕ → String → Except String V)
    (err : ℕ → String → String) (prompt : String) (m : ℕ) (hm : 1 ≤ m)
    (hfail : ∀ n p, gen n p = Except.error (err n p)) :
    eg6.extract_with_retry gen prompt m
      = (.raised (err (m - 1) (eg6.promptSeqA err 0 prompt (m - 1))), m) := by
  obtain ⟨r, rfl⟩ : ∃ r, m = r + 1 := ⟨m - 1, by omega⟩
  rw [eg6.extract_with_retry, eg6.retryAux_allFail gen err hfail r 0 prompt]
  simp

/-- Witness for C5: two always-failing attempts. -/
theorem claim_C5_witness :
    (1 : ℕ) ≤ 2
    ∧ eg6.extract_with_retry (V := ℕ) (fun _ _ => Except.error "invalid JSON") "extract" 2
        = (.raised "invalid JSON", 2) :=
  ⟨by decide, claim_C5_retry_exhaustion ℕ (fun _ _ => Except.error "invalid JSON")
    (fun _ _ => "invalid JSON") "extract" 2 (by decide) (fun _ _ => rfl)⟩

/-- C7: `validate_code_block_normalize` rejects outright, with the single
corresponding reason and no content-check reasons, whenever (a) the
stripped response does not both start and end with a fence delimiter
(extra text around the fence), or (b) the fenced-region scan does not find
exactly one python-tagged block.  In both cases the function returns
before any content check runs. -/
theorem claim_C7_single_fence_gate :
    (∀ r : String, eg5.fenceWrap (pyStrip r.data) = false →
        eg5.validate_code_block_normalize r = (false, [.notSingleFence]))
    ∧ (∀ r : String, eg5.fenceWrap (pyStrip r.data) = true →
        ¬ (eg5.findBlocks r).length = 1 →
        eg5.validate_code_block_normalize r = (false, [.notOnePythonBlock])) := by
  constructor
  · intro r h
    rw [eg5.validate_code_block_normalize, if_pos (by simp [h])]
  · intro r h1 h2
    rw [eg5.validate_code_block_normalize, if_neg (by simp [h1])]
    cases hfb : eg5.findBlocks r with
    | nil => rfl
    | cons c cs =>
      cases cs with
      | nil => exact absurd (by rw [hfb]; rfl) h2
      | cons c2 cs2 => rfl

set_option maxRecDepth 10000 in
/-- Witness for C7: prose around a fence, and a two-block response. -/
theorem claim_C7_witness :
    eg5.validate_code_block_normalize ("see below: ```python\nx = 1\n```")
        = (false, [.notSingleFence])
    ∧ eg5.validate_code_block_normalize ("```python\na\n```\n```python\nb\n```")
        = (false, [.notOnePythonBlock]) :=
  ⟨claim_C7_single_fence_gate.1 _ (by decide),
   claim_C7_single_fence_gate.2 _ (by decide) (by decide)⟩

/-- C9: on the numeric-tag validator, (a) if the whole-string shape check
fails the result carries exactly the one "not exactly one tag" reason and
every remaining check is skipped; (b) if the shape check succeeds, the
unit, rounding, decimal-count and numeric checks all run on the isolated
attributes/value and the result is exactly the concatenation of their
independent reason lists (failures accumulate, no short-circuit); (c) a
single rejection can carry several reasons — wrong unit and wrong
precision fire simultaneously on a concrete response. -/
theorem claim_C9_shape_gate_then_accumulate :
    (∀ (r : String) (e : ScaledDec) (u : String) (dp : ℕ),
        eg5.answerShape r.data = none →
        eg5.validate_math_answer r e u dp = (false, [.notExactlyOneTag]))
    ∧ (∀ (r : String) (e : ScaledDec) (u : String) (dp : ℕ) (attrs content : List Char),
        eg5.answerShape r.data = some (attrs, content) →
        eg5.validate_math_answer r e u dp =
          ((eg5.unitsReasons attrs u.data ++ eg5.roundingReasons attrs dp
            ++ eg5.decimalsReasons (pyStrip content) dp
            ++ eg5.numericReasons (pyStrip content) e dp).isEmpty,
           eg5.unitsReasons attrs u.data ++ eg5.roundingReasons attrs dp
            ++ eg5.decimalsReasons (pyStrip content) dp
            ++ eg5.numericReasons (pyStrip content) e dp))
    ∧ eg5.validate_math_answer ("  <answer units=\"kg\" rounding=\"2dp\">2.500</answer>")
        ⟨25, 1⟩ ("m/s^2") 3
        = (false, [.wrongUnits ("kg".data) ("m/s^2".data), .wrongRoundingDp 2 3]) := by
  refine ⟨?_, ?_, by decide⟩
  · intro r e u dp h
    rw [eg5.validate_math_answer, h]
  · intro r e u dp attrs content h
    rw [eg5.validate_math_answer, h]

set_option maxRecDepth 10000 in
/-- Witness for C9: a shapeless response, and a well-shaped response whose
result is the concatenation of the four independent check results. -/
theorem claim_C9_witness :
    eg5.validate_math_answer "no tags at all" ⟨25, 1⟩ "m/s^2" 3
        = (false, [.notExactlyOneTag])
    ∧ eg5.validate_math_answer ("<answer units=\"kg\" rounding=\"1dp\">2.5</answer>")
        ⟨25, 1⟩ "kg" 1
        = ((eg5.unitsReasons ((" units=\"kg\" rounding=\"1dp\"").data) ("kg".data)
            ++ eg5.roundingReasons ((" units=\"kg\" rounding=\"1dp\"").data) 1
            ++ eg5.decimalsReasons (pyStrip (("2.5").data)) 1
            ++ eg5.numericReasons (pyStrip (("2.5").data)) ⟨25, 1⟩ 1).isEmpty,
           eg5.unitsReasons ((" units=\"kg\" rounding=\"1dp\"").data) ("kg".data)
            ++ eg5.roundingReasons ((" units=\"kg\" rounding=\"1dp\"").data) 1
            ++ eg5.decimalsReasons (pyStrip (("2.5").data)) 1
            ++ eg5.numericReasons (pyStrip (("2.5").data)) ⟨25, 1⟩ 1) :=
  ⟨claim_C9_shape_gate_then_accumulate.1 _ _ _ _ (by decide),
   claim_C9_shape_gate_then_accumulate.2.1 _ _ _ _ _ _ (by decide)⟩

set_option maxRecDepth 10000 in
/-- C6 counterexample: the claim says the header check passes only when the
first line literally equals "# Python 3.12, stdlib only".  The source
checks the line against the pattern `^\s*#\s*Python\s*3\.12,\s*stdlib\s*only\s*$`,
whose `\s*` gaps may be empty or wider, so the line
"#Python 3.12, stdlib only" (no space after `#`) — not literally equal to
the required header — passes the check and the whole response is
accepted. -/
theorem claim_C6_counterexample :
    eg5.validate_code_block_normalize
        ("```python\n#Python 3.12, stdlib only\ndef normalize(v: list[float]) -> list[float]:\n    return v\nif __name__ == \"__main__\":\n    normalize([])\n```")
      = (true, [])
    ∧ (eg5.splitlines ((eg5.findBlocks
          ("```python\n#Python 3.12, stdlib only\ndef normalize(v: list[float]) -> list[float]:\n    return v\nif __name__ == \"__main__\":\n    normalize([])\n```")).headD [])).headD []
        = ("#Python 3.12, stdlib only").data
    ∧ ¬ ("#Python 3.12, stdlib only").data = ("# Python 3.12, stdlib only").data :=
  ⟨by decide, by decide, by decide⟩

/-- C6 (amended): the first code line must match the flexible-whitespace
header pattern (each `\s*` possibly empty) rather than literally equal the
header text; and — as the claim states — a single-block response whose
first line fails that pattern but which has the exact signature, the main
guard and no banned imports is rejected with exactly one header reason. -/
theorem claim_C6_missing_header_single_reason (response : String)
    (code l0 : List Char) (rest : List (List Char))
    (h1 : eg5.fenceWrap (pyStrip response.data) = true)
    (h2 : eg5.findBlocks response = [code])
    (h3 : eg5.splitlines code = l0 :: rest)
    (h4 : eg5.headerMatch l0 = false)
    (h5 : eg5.hasSignature code = true)
    (h6 : eg5.hasMainGuard code = true)
    (h7 : eg5.importReasons code = []) :
    eg5.validate_code_block_normalize response = (false, [.headerWrong]) := by
  rw [eg5.validate_code_block_normalize, if_neg (by simp [h1]), h2]
  simp [h3, h4, h5, h6, h7]

set_option maxRecDepth 10000 in
/-- Witness for C6: the source's own sample failure — a block with the
right signature and guard but no header line. -/
theorem claim_C6_witness :
    eg5.validate_code_block_normalize
        ("```python\ndef normalize(v: list[float]) -> list[float]:\n    return v\nif __name__ == \"__main__\":\n    normalize([])\n```")
      = (false, [.headerWrong]) :=
  claim_C6_missing_header_single_reason _
    (("def normalize(v: list[float]) -> list[float]:\n    return v\nif __name__ == \"__main__\":\n    normalize([])").data)
    (("def normalize(v: list[float]) -> list[float]:").data)
    [("    return v").data, ("if __name__ == \"__main__\":").data, ("    normalize([])").data]
    (by decide) (by decide) (by decide) (by decide) (by decide) (by decide) (by decide)

set_option maxRecDepth 10000 in
/-- C3 counterexample: the claim's universal "a response carrying exactly
that rounded value passes the check" fails at expected value 2.5 with
dp = 30.  The quantized coefficient (2.5 × 10^30, 31 digits) exceeds the
default context precision of 28, `Decimal.quantize` raises
`InvalidOperation`, the source reports "Could not parse numeric value for
comparison", and the response carrying exactly the rounded value
2.500000000000000000000000000000 — whose parsed value equals the
half-away-from-zero rounding of 2.5 at 30 places — is rejected. -/
theorem claim_C3_counterexample :
    eg5.validate_math_answer
        ("<answer units=\"m/s^2\" rounding=\"30dp\">2.500000000000000000000000000000</answer>")
        ⟨25, 1⟩ ("m/s^2") 30
      = (false, [.couldNotParse])
    ∧ parseDecimal (("2.500000000000000000000000000000").data)
        = some ⟨2500000000000000000000000000000, 30⟩
    ∧ (ScaledDec.mk 2500000000000000000000000000000 30).toQ
        = ((roundHalfAwaySpec ((ScaledDec.mk 25 1).toQ * (10 : ℚ) ^ (30 : ℕ)) : ℤ) : ℚ)
            / (10 : ℚ) ^ (30 : ℕ)
    ∧ quantizeHalfUp ⟨25, 1⟩ 30 = none := by
  refine ⟨by decide, by decide, ?_, by decide⟩
  have h1 : (ScaledDec.mk 25 1).toQ * (10 : ℚ) ^ (30 : ℕ)
      = ((2500000000000000000000000000000 : ℤ) : ℚ) := by
    rw [ScaledDec.toQ]
    norm_num
  rw [h1, roundHalfAwaySpec_intCast, ScaledDec.toQ]
  norm_num

/-- C3 (amended): for every expected `Decimal` value and declared precision
whose quantization stays within the default context precision (result
coefficient below 10^28 — which holds for every value the program actually
validates), the numeric-equality check compares the parsed inner value, as
an exact rational with no binary floating point involved, against the
expected value quantized to `dp` places: the check passes exactly when the
values are equal; that quantization is rounding by `roundHalfAwaySpec`
(round half away from zero) scaled by `10^dp`; and on exact ties
`roundHalfAwaySpec` moves away from zero (up in magnitude), not to the even
neighbour.  When the quantization overflows the context precision the
program rejects every response with the "Could not parse" reason (see the
counterexample). -/
theorem claim_C3_numeric_check (expected : ScaledDec) (dp : ℕ) (vt : List Char)
    (d expq : ScaledDec) (h : parseDecimal vt = some d)
    (hq : quantizeHalfUp expected dp = some expq) :
    (eg5.numericReasons vt expected dp = [] ↔ d.toQ = expq.toQ)
    ∧ expq.toQ
        = ((roundHalfAwaySpec (expected.toQ * (10 : ℚ) ^ dp) : ℤ) : ℚ) / (10 : ℚ) ^ dp
    ∧ ∀ k : ℤ, roundHalfAwaySpec (((2 * k + 1 : ℤ) : ℚ) / 2)
        = if 0 ≤ k then k + 1 else k := by
  refine ⟨?_, quantizeHalfUp_toQ hq, roundHalfAwaySpec_tie⟩
  rw [eg5.numericReasons, h, hq]
  cases hb : decValEq d expq with
  | true =>
    simp only [if_pos rfl]
    simp [hb, ← decValEq_iff]
  | false =>
    simp [hb, ← decValEq_iff]

/-- Witness for C3: the inner text "2.500" against expected value 2.5 at
three decimal places (quantization in range). -/
theorem claim_C3_witness :
    parseDecimal ("2.500".data) = some ⟨2500, 3⟩
    ∧ quantizeHalfUp ⟨25, 1⟩ 3 = some ⟨2500, 3⟩
    ∧ ((eg5.numericReasons ("2.500".data) ⟨25, 1⟩ 3 = []
          ↔ (ScaledDec.mk 2500 3).toQ = (ScaledDec.mk 2500 3).toQ)
       ∧ (ScaledDec.mk 2500 3).toQ
          = ((roundHalfAwaySpec ((ScaledDec.mk 25 1).toQ * (10 : ℚ) ^ 3) : ℤ) : ℚ)
              / (10 : ℚ) ^ 3
       ∧ ∀ k : ℤ, roundHalfAwaySpec (((2 * k + 1 : ℤ) : ℚ) / 2)
          = if 0 ≤ k then k + 1 else k) :=
  ⟨rfl, rfl, claim_C3_numeric_check ⟨25, 1⟩ 3 ("2.500".data) ⟨2500, 3⟩ ⟨2500, 3⟩ rfl rfl⟩
